import Mathlib

/-!
# Verification of the qn-rancher-operator namespace controller

A shallow embedding of `controllers/namespace_controller.go`.  Go maps
`map[string]string` are modelled as association lists (`SMap`) with
first-match lookup and in-place-overwrite insertion; a possibly-nil Go map
is `Option SMap` (reading a nil map behaves like reading an empty one).
`strings.EqualFold` is modelled as equality after ASCII lower-casing,
`strings.Contains` / `strings.TrimSuffix` / `strings.Split` on the
underlying character lists.  Fallible API calls (Get/List/Patch) are
modelled by passing their results as explicit inputs to the functions that
perform them.
-/

namespace RancherOperator

/-- Go `map[string]string`, as an association list (keys assumed unique,
as in a Go map: lookup takes the first hit, insertion overwrites it). -/
abbrev SMap := List (String × String)

/-- Go map read `m[k]`: `some v` when the key is present (`v, ok := m[k]`
with `ok = true`), `none` when absent. -/
def SMap.find : SMap → String → Option String
  | [], _ => none
  | (k', v) :: rest, k => if k' = k then some v else SMap.find rest k

/-- Go map write `m[k] = v`: overwrite the existing entry or append. -/
def SMap.insert : SMap → String → String → SMap
  | [], k, v => [(k, v)]
  | (k', v') :: rest, k, v =>
      if k' = k then (k, v) :: rest else (k', v') :: SMap.insert rest k v

/-- ASCII lower-casing of one character (the fragment of Unicode case
folding the controller's inputs exercise). -/
def lowerChar (c : Char) : Char :=
  if 'A' ≤ c && c ≤ 'Z' then Char.ofNat (c.toNat + 32) else c

/-- `strings.ToLower`, restricted to ASCII. -/
def strToLower (s : String) : String := ⟨s.data.map lowerChar⟩

/-- `strings.EqualFold`, restricted to ASCII case folding. -/
def eqFold (a b : String) : Bool := a.data.map lowerChar == b.data.map lowerChar

/-- Boolean list-prefix test. -/
def isPrefixL : List Char → List Char → Bool
  | [], _ => true
  | _ :: _, [] => false
  | a :: as, b :: bs => a == b && isPrefixL as bs

/-- Boolean list-infix test. -/
def isInfixL (pat : List Char) : List Char → Bool
  | [] => pat.isEmpty
  | c :: rest => isPrefixL pat (c :: rest) || isInfixL pat rest

/-- `strings.Contains s pat` via the character data. -/
def strContains (s pat : String) : Bool := isInfixL pat.data s.data

/-- `strings.TrimSuffix s suf`: remove `suf` once if `s` ends with it. -/
def trimSuffix (s suf : String) : String :=
  if isPrefixL suf.data.reverse s.data.reverse then
    ⟨s.data.take (s.data.length - suf.data.length)⟩
  else s

/-- `strings.Split s ":"` on the character data (the separator is the
single ASCII character `:`). -/
def splitOnColon : List Char → List (List Char)
  | [] => [[]]
  | c :: rest =>
      let r := splitOnColon rest
      if c = ':' then [] :: r
      else
        match r with
        | [] => [[c]]
        | h :: t => (c :: h) :: t

-- Constants from the Go source.
def rancherProjectIDLabel : String := "field.cattle.io/projectId"
def rancherClusterIDLabel : String := "field.cattle.io/clusterId"
def rancherProjectIDAnnotation : String := "field.cattle.io/projectId"
def appOwnerLabel : String := "appOwner"

/-- A `corev1.Namespace` as the controller sees it: name, labels,
annotations.  `none` models a nil Go map. -/
structure K8sNamespace where
  name : String
  labels : Option SMap
  annotations : Option SMap
  deriving Repr, DecidableEq

/-- Reading a possibly-nil Go map: nil reads as empty. -/
def readMap (m : Option SMap) : SMap := m.getD []

/-- A Rancher `Project` (unstructured): `metadata.name`,
`spec.displayName` (`none` when the nested field is absent or not a
string), labels and annotations (a Go `GetLabels` on a nil map yields
nothing, so plain lists suffice here). -/
structure Project where
  name : String
  displayName : Option String
  labels : SMap
  annotations : SMap
  deriving Repr, DecidableEq

/-- `projectMatches` (namespace_controller.go:314-351): case-insensitive
match of the wanted name against `spec.displayName`, then any label
value (with a redundant extra check for keys containing "name" or
"project"), then any annotation value (extra check for keys containing
"name" or "display"). -/
def projectMatches (project : Project) (projectName : String) : Bool :=
  (match project.displayName with
   | some displayName => eqFold displayName projectName
   | none => false)
  || project.labels.any (fun kv =>
      eqFold kv.2 projectName
      || ((strContains (strToLower kv.1) "name" || strContains (strToLower kv.1) "project")
          && eqFold kv.2 projectName))
  || project.annotations.any (fun kv =>
      eqFold kv.2 projectName
      || ((strContains (strToLower kv.1) "name" || strContains (strToLower kv.1) "display")
          && eqFold kv.2 projectName))

/-- The match predicate as the spec words it, without the redundant
key-substring checks: the name matches `spec.displayName`, or some label
value, or some annotation value, case-insensitively.  Compared against
`projectMatches` to show the key-substring checks change nothing. -/
def projectMatchesSpec (project : Project) (projectName : String) : Bool :=
  (match project.displayName with
   | some displayName => eqFold displayName projectName
   | none => false)
  || project.labels.any (fun kv => eqFold kv.2 projectName)
  || project.annotations.any (fun kv => eqFold kv.2 projectName)

/-- `findProjectByName` (namespace_controller.go:277-311), with the
outcome of the underlying `List` call passed in: on a list error the
error is wrapped and propagated; otherwise the first project in list
order satisfying `projectMatches` is returned, or `none`. -/
def findProjectByName (listResult : Except String (List Project))
    (projectName : String) : Except String (Option Project) :=
  match listResult with
  | .error e => .error ("unable to list projects: " ++ e)
  | .ok projects => .ok (projects.find? (fun p => projectMatches p projectName))

/-- `extractClusterID` (namespace_controller.go:355-361):
`strings.Split(projectID, ":")`, return `parts[0]` when there are at
least two parts, else the empty string. -/
def extractClusterID (projectID : String) : String :=
  let parts := splitOnColon projectID.data
  if parts.length ≥ 2 then ⟨parts.headD []⟩ else ""

/-- `updateNamespaceWithProject` (namespace_controller.go:364-392), the
pure part: initialize nil maps, set the project-id label, the cluster-id
label when `clusterID` is non-empty, and the project-id annotation. -/
def updateNamespaceWithProject (ns : K8sNamespace)
    (projectID clusterID : String) : K8sNamespace :=
  let labels := readMap ns.labels
  let labels := labels.insert rancherProjectIDLabel projectID
  let labels :=
    if clusterID ≠ "" then labels.insert rancherClusterIDLabel clusterID
    else labels
  let annotations := (readMap ns.annotations).insert rancherProjectIDAnnotation projectID
  { ns with labels := some labels, annotations := some annotations }

/-- `getClusterClient` (namespace_controller.go:140-148) always reports
the management cluster: cluster id `"local"`. -/
def getClusterClientID : String := "local"

/-- Outcome of one `Reconcile` call: the returned error (`none` on
success) and the list of namespace states sent to `Patch`, one entry per
patch call issued. -/
structure ReconcileOutcome where
  err : Option String
  patches : List K8sNamespace
  deriving Repr, DecidableEq

/-- `Reconcile` (namespace_controller.go:60-134).  The fetch result, the
project-list result and the patch error are the outcomes of the
corresponding API calls.  `Except.ok none` for `fetch` is the NotFound
case; the detected cluster id is always `getClusterClientID`. -/
def Reconcile (fetch : Except String (Option K8sNamespace))
    (projectList : Except String (List Project))
    (patchErr : Option String) : ReconcileOutcome :=
  match fetch with
  | .error e => ⟨some e, []⟩
  | .ok none => ⟨none, []⟩
  | .ok (some ns) =>
    let clusterID := getClusterClientID
    match (readMap ns.labels).find appOwnerLabel with
    | none => ⟨none, []⟩
    | some appOwner =>
      if appOwner = "" then ⟨none, []⟩
      else
        let assigned :=
          match (readMap ns.labels).find rancherProjectIDLabel with
          | some projectID => projectID != ""
          | none => false
        if assigned then ⟨none, []⟩
        else
          match findProjectByName projectList appOwner with
          | .error e => ⟨some e, []⟩
          | .ok none => ⟨none, []⟩
          | .ok (some project) =>
            let projectID := project.name
            let projectClusterID := extractClusterID projectID
            let projectClusterID :=
              if projectClusterID = "" then clusterID else projectClusterID
            if projectID = "" then ⟨none, []⟩
            else
              let ns' := updateNamespaceWithProject ns projectID projectClusterID
              match patchErr with
              | some e => ⟨some e, [ns']⟩
              | none => ⟨none, [ns']⟩

/-- The proxy-endpoint host rewrite inside `createClusterClient`
(namespace_controller.go:259-265): a non-empty host not already
containing `"/k8s/clusters/"` gets `"/k8s/clusters/" ++ clusterID`
appended after trimming a trailing slash. -/
def rewriteHost (host clusterID : String) : String :=
  if host ≠ "" then
    if ¬ (strContains host "/k8s/clusters/" = true) then
      trimSuffix host "/" ++ "/k8s/clusters/" ++ clusterID
    else host
  else host

/-- One entry of a cluster's `status.conditions` list as the untyped
reads see it: `condMap["type"].(string)` / `condMap["status"].(string)`,
`none` when absent or not a string (a non-map entry is a record with
both fields `none`). -/
structure ClusterCondition where
  condType : Option String
  condStatus : Option String
  deriving Repr, DecidableEq

/-- A `management.cattle.io/v3 Cluster` as `doRefreshClusterClients`
reads it: `metadata.name` and the nested `status.conditions` list
(`none` when the `status` map or the `conditions` slice is missing). -/
structure Cluster where
  name : String
  conditions : Option (List ClusterCondition)
  deriving Repr, DecidableEq

/-- The readiness scan (namespace_controller.go:211-221): some condition
has type `"Ready"` and status `"True"`. -/
def clusterReady (conds : List ClusterCondition) : Bool :=
  conds.any (fun c => c.condType == some "Ready" && c.condStatus == some "True")

/-- Whether `doRefreshClusterClients` keeps a listed cluster: not the
local cluster, conditions present, ready, and client construction
succeeded (`clientOk` reports whether `client.New` succeeds for a given
cluster id). -/
def includeCluster (clientOk : String → Bool) (c : Cluster) : Bool :=
  c.name != "local"
  && (match c.conditions with
      | none => false
      | some conds => clusterReady conds)
  && clientOk c.name

/-- `doRefreshClusterClients` (namespace_controller.go:168-246).  The
map holds, per kept cluster id, the rewritten proxy host its client is
bound to.  A failed cluster list leaves the previous map untouched;
otherwise the map is rebuilt from scratch by the loop. -/
def doRefreshClusterClients (old : SMap)
    (listResult : Except String (List Cluster))
    (baseHost : String) (clientOk : String → Bool) : SMap :=
  match listResult with
  | .error _ => old
  | .ok clusters =>
      clusters.foldl
        (fun acc c =>
          if includeCluster clientOk c then
            acc.insert c.name (rewriteHost baseHost c.name)
          else acc)
        []

/-- Modelled from the spec: the canonical-identifier derivation of the
optional project-creation path.  The creation code was removed from the
source (`namespace_controller.go:106` — "project creation removed"), so
this follows §4.2 of the spec: lowercase; spaces, underscores and
periods become hyphens; other non-alphanumeric, non-hyphen characters
are stripped; repeated hyphens collapse; leading/trailing hyphens are
trimmed; a `"p-"` prefix is forced if absent; the result is truncated to
63 characters with no trailing hyphen. -/
def generateProjectID (name : String) : String :=
  let s := name.data.map lowerChar
  let s := s.map (fun c => if c = ' ' || c = '_' || c = '.' then '-' else c)
  let s := s.filter (fun c => c.isAlphanum || c = '-')
  let s := collapseHyphens s
  let s := (s.dropWhile (· = '-')).reverse.dropWhile (· = '-') |>.reverse
  let s := if isPrefixL ['p', '-'] s then s else 'p' :: '-' :: s
  let s := s.take 63
  let s := s.reverse.dropWhile (· = '-') |>.reverse
  ⟨s⟩
where
  collapseHyphens : List Char → List Char
    | [] => []
    | ['-'] => ['-']
    | '-' :: '-' :: rest => collapseHyphens ('-' :: rest)
    | c :: rest => c :: collapseHyphens rest

/-! ## Helper lemmas -/

/-- Inserting a key makes it present with the inserted value. -/
theorem SMap.find_insert_self (m : SMap) (k v : String) :
    (m.insert k v).find k = some v := by
  induction m with
  | nil => simp [SMap.insert, SMap.find]
  | cons kv rest ih =>
      by_cases h : kv.1 = k
      · simp [SMap.insert, h, SMap.find]
      · simp [SMap.insert, h, SMap.find, ih]

/-- Inserting one key leaves every other key's lookup unchanged. -/
theorem SMap.find_insert_ne (m : SMap) (k v q : String) (h : q ≠ k) :
    (m.insert k v).find q = m.find q := by
  induction m with
  | nil => simp [SMap.insert, SMap.find, h, Ne.symm h]
  | cons kv rest ih =>
      by_cases hk : kv.1 = k
      · subst hk
        simp [SMap.insert, SMap.find, h, Ne.symm h]
      · simp [SMap.insert, hk, SMap.find, ih]

/-- Presence after insertion: the inserted key, or anything already
present. -/
theorem SMap.isSome_find_insert (m : SMap) (k v q : String) :
    ((m.insert k v).find q).isSome = ((k == q) || (m.find q).isSome) := by
  by_cases h : q = k
  · subst h
    simp [SMap.find_insert_self]
  · rw [SMap.find_insert_ne m k v q h]
    have : (k == q) = false := by
      simp [BEq.beq]
      exact fun hq => h hq.symm
    simp [this]

theorem bool_or_redundant (a b : Bool) : (a || (b && a)) = a := by
  cases a <;> cases b <;> rfl

theorem any_congrB {α : Type} (l : List α) (f g : α → Bool)
    (h : ∀ x, f x = g x) : l.any f = l.any g := by
  induction l with
  | nil => rfl
  | cons x xs ih => simp [List.any_cons, h x, ih]

/-- A namespace already carrying a non-empty project-id label is left
alone: no error, no patch, whatever the project listing would return. -/
theorem reconcile_noop_of_assigned (ns : K8sNamespace) (pid : String)
    (h : (readMap ns.labels).find rancherProjectIDLabel = some pid) (hne : pid ≠ "")
    (L : Except String (List Project)) (E : Option String) :
    Reconcile (.ok (some ns)) L E = ⟨none, []⟩ := by
  unfold Reconcile
  cases hfind : (readMap ns.labels).find appOwnerLabel with
  | none => simp [hfind]
  | some owner =>
      by_cases howner : owner = ""
      · simp [hfind, howner]
      · simp [hfind, howner, h, hne]

/-- A namespace with no (or an empty) owner label is left alone. -/
theorem reconcile_noop_of_no_owner (ns : K8sNamespace)
    (h : (readMap ns.labels).find appOwnerLabel = none ∨
         (readMap ns.labels).find appOwnerLabel = some "")
    (L : Except String (List Project)) (E : Option String) :
    Reconcile (.ok (some ns)) L E = ⟨none, []⟩ := by
  unfold Reconcile
  rcases h with h | h <;> simp [h]

/-- Any patch `Reconcile` issues is an `updateNamespaceWithProject` of
the fetched namespace with a non-empty project id. -/
theorem reconcile_patch_shape (ns : K8sNamespace)
    (L : Except String (List Project)) (E : Option String) (ns' : K8sNamespace)
    (h : (Reconcile (.ok (some ns)) L E).patches = [ns']) :
    ∃ pid cid, pid ≠ "" ∧ ns' = updateNamespaceWithProject ns pid cid := by
  unfold Reconcile at h
  simp only at h
  rcases hfind : (readMap ns.labels).find appOwnerLabel with _ | owner
  · simp [hfind] at h
  · rw [hfind] at h
    dsimp only at h
    by_cases howner : owner = ""
    · rw [if_pos howner] at h; simp at h
    · rw [if_neg howner] at h
      by_cases hass : (match (readMap ns.labels).find rancherProjectIDLabel with
          | some projectID => projectID != "" | none => false) = true
      · rw [if_pos hass] at h; simp at h
      · rw [if_neg hass] at h
        rcases hres : findProjectByName L owner with e | po
        · rw [hres] at h; simp at h
        · rw [hres] at h
          rcases po with _ | project
          · simp at h
          · dsimp only at h
            by_cases hpid : project.name = ""
            · rw [if_pos hpid] at h; simp [hpid] at h
            · rw [if_neg hpid] at h
              refine ⟨project.name,
                if extractClusterID project.name = "" then getClusterClientID
                else extractClusterID project.name, hpid, ?_⟩
              rcases E with _ | e
              · simp at h; exact h.symm
              · simp at h; exact h.symm

theorem proj_ne_cluster : rancherProjectIDLabel ≠ rancherClusterIDLabel := by decide

/-- The update never touches the namespace name. -/
theorem update_name (ns : K8sNamespace) (pid cid : String) :
    (updateNamespaceWithProject ns pid cid).name = ns.name := by
  unfold updateNamespaceWithProject
  by_cases h : cid = "" <;> simp [h]

/-- The update stores `pid` under the project-id label, overwriting. -/
theorem update_labels_projectId (ns : K8sNamespace) (pid cid : String) :
    (readMap (updateNamespaceWithProject ns pid cid).labels).find rancherProjectIDLabel
      = some pid := by
  unfold updateNamespaceWithProject
  by_cases h : cid = ""
  · simp [h, readMap, SMap.find_insert_self]
  · simp [h, readMap, SMap.find_insert_ne _ _ _ _ proj_ne_cluster,
      SMap.find_insert_self]

/-- With a non-empty cluster id, the cluster-id label is stored. -/
theorem update_labels_clusterId_pos (ns : K8sNamespace) (pid cid : String)
    (h : cid ≠ "") :
    (readMap (updateNamespaceWithProject ns pid cid).labels).find rancherClusterIDLabel
      = some cid := by
  unfold updateNamespaceWithProject
  simp [h, readMap, SMap.find_insert_self]

/-- With an empty cluster id, the cluster-id label is left alone. -/
theorem update_labels_clusterId_neg (ns : K8sNamespace) (pid : String) :
    (readMap (updateNamespaceWithProject ns pid "").labels).find rancherClusterIDLabel
      = (readMap ns.labels).find rancherClusterIDLabel := by
  unfold updateNamespaceWithProject
  simp [readMap, SMap.find_insert_ne _ _ _ _ (Ne.symm proj_ne_cluster)]

/-- The update stores `pid` under the project-id annotation key. -/
theorem update_annos_projectId (ns : K8sNamespace) (pid cid : String) :
    (readMap (updateNamespaceWithProject ns pid cid).annotations).find
      rancherProjectIDAnnotation = some pid := by
  unfold updateNamespaceWithProject
  by_cases h : cid = "" <;> simp [h, readMap, SMap.find_insert_self]

/-- Labels under any other key keep their prior value. -/
theorem update_labels_other (ns : K8sNamespace) (pid cid k : String)
    (h1 : k ≠ rancherProjectIDLabel) (h2 : k ≠ rancherClusterIDLabel) :
    (readMap (updateNamespaceWithProject ns pid cid).labels).find k
      = (readMap ns.labels).find k := by
  unfold updateNamespaceWithProject
  by_cases h : cid = ""
  · simp [h, readMap, SMap.find_insert_ne _ _ _ _ h1]
  · simp [h, readMap, SMap.find_insert_ne _ _ _ _ h2,
      SMap.find_insert_ne _ _ _ _ h1]

/-- Annotations under any other key keep their prior value. -/
theorem update_annos_other (ns : K8sNamespace) (pid cid k : String)
    (h : k ≠ rancherProjectIDAnnotation) :
    (readMap (updateNamespaceWithProject ns pid cid).annotations).find k
      = (readMap ns.annotations).find k := by
  unfold updateNamespaceWithProject
  by_cases hc : cid = "" <;> simp [hc, readMap, SMap.find_insert_ne _ _ _ _ h]

/-- After the update both maps are initialized (never nil). -/
theorem update_maps_initialized (ns : K8sNamespace) (pid cid : String) :
    (updateNamespaceWithProject ns pid cid).labels.isSome = true ∧
    (updateNamespaceWithProject ns pid cid).annotations.isSome = true := by
  unfold updateNamespaceWithProject
  by_cases h : cid = "" <;> simp [h]

/-- Splitting a colon-free string yields the string itself. -/
theorem splitOnColon_eq_single (l : List Char) (h : ':' ∉ l) :
    splitOnColon l = [l] := by
  induction l with
  | nil => rfl
  | cons c rest ih =>
      have hc : ¬(c = ':') := fun hc => h (hc ▸ List.mem_cons_self c rest)
      have hrest : ':' ∉ rest := fun hr => h (List.mem_cons_of_mem c hr)
      simp [splitOnColon, hc, ih hrest]

/-- The redundant disjunct of the per-entry label/annotation check. -/
theorem projectMatches_eq_spec (p : Project) (n : String) :
    projectMatches p n = projectMatchesSpec p n := by
  unfold projectMatches projectMatchesSpec
  rw [any_congrB p.labels _ _ (fun kv => bool_or_redundant (eqFold kv.2 n) _),
    any_congrB p.annotations _ _ (fun kv => bool_or_redundant (eqFold kv.2 n) _)]

/-- A prefix is found at the front of an append. -/
theorem isPrefixL_append (p r : List Char) : isPrefixL p (p ++ r) = true := by
  induction p with
  | nil => rfl
  | cons a as ih => simp [isPrefixL, ih]

/-- A Boolean prefix is a Boolean infix. -/
theorem isInfixL_of_isPrefixL (p l : List Char) (h : isPrefixL p l = true) :
    isInfixL p l = true := by
  cases l with
  | nil =>
      cases p with
      | nil => rfl
      | cons a as => simp [isPrefixL] at h
  | cons c rest => simp [isInfixL, h]

/-- A Boolean infix survives prepending. -/
theorem isInfixL_append_left (p x l : List Char) (h : isInfixL p l = true) :
    isInfixL p (x ++ l) = true := by
  induction x with
  | nil => simpa using h
  | cons c cs ih =>
      show isInfixL p (c :: (cs ++ l)) = true
      unfold isInfixL
      rw [ih, Bool.or_true]

theorem str_data_append (s t : String) : (s ++ t).data = s.data ++ t.data := rfl

/-- Membership in the rebuilt client map, generalized over the
accumulator of the refresh loop. -/
theorem refresh_fold_find_isSome (baseHost : String) (ok : String → Bool)
    (cs : List Cluster) (acc : SMap) (cid : String) :
    (((cs.foldl
        (fun acc c =>
          if includeCluster ok c then
            acc.insert c.name (rewriteHost baseHost c.name)
          else acc) acc).find cid).isSome)
      = ((acc.find cid).isSome
          || cs.any (fun c => (c.name == cid) && includeCluster ok c)) := by
  induction cs generalizing acc with
  | nil => simp
  | cons c cs ih =>
      rw [List.foldl_cons, ih]
      by_cases hinc : includeCluster ok c = true
      · simp only [hinc, if_true, SMap.isSome_find_insert, List.any_cons,
          Bool.and_true]
        cases c.name == cid <;> cases (acc.find cid).isSome <;> simp
      · simp only [Bool.not_eq_true] at hinc
        simp only [hinc, Bool.false_eq_true, if_false, List.any_cons,
          Bool.and_false, Bool.false_or]

/-- `find?` returns the first element satisfying the predicate. -/
theorem find_first_match (ps1 ps2 : List Project) (p : Project) (n : String)
    (h1 : ∀ q ∈ ps1, projectMatches q n = false)
    (hp : projectMatches p n = true) :
    (ps1 ++ p :: ps2).find? (fun q => projectMatches q n) = some p := by
  induction ps1 with
  | nil => simp [List.find?_cons_of_pos, hp]
  | cons q qs ih =>
      rw [List.cons_append, List.find?_cons_of_neg]
      · exact ih (fun r hr => h1 r (List.mem_cons_of_mem q hr))
      · simp [h1 q (List.mem_cons_self q qs)]

/-- A reconcile whose owner value matches no listed project ends with no
error and no patch. -/
theorem reconcile_noop_of_no_match (ns : K8sNamespace) (ps : List Project)
    (E : Option String) (owner : String)
    (h1 : (readMap ns.labels).find appOwnerLabel = some owner)
    (howner : owner ≠ "")
    (h2 : ∀ p ∈ ps, projectMatches p owner = false) :
    Reconcile (.ok (some ns)) (.ok ps) E = ⟨none, []⟩ := by
  unfold Reconcile
  simp only []
  rw [h1]
  dsimp only
  rw [if_neg howner]
  by_cases hass : (match (readMap ns.labels).find rancherProjectIDLabel with
      | some projectID => projectID != "" | none => false) = true
  · rw [if_pos hass]
  · rw [if_neg hass]
    have hres : findProjectByName (.ok ps) owner = .ok none := by
      unfold findProjectByName
      simp only [Except.ok.injEq]
      rw [List.find?_eq_none]
      intro q hq
      simp [h2 q hq]
    rw [hres]

/-! ## Claim theorems -/

/-- C2: a namespace whose project-id label is present and non-empty is
reconciled as a no-op — no error, no patch, and the outcome does not
depend on the project listing (no resolution happens) — regardless of
the owner label; and once an assignment patch has been issued, a second
reconcile of the patched namespace issues zero further patches. -/
theorem claim_C2 :
    (∀ (ns : K8sNamespace) (pid : String),
        (readMap ns.labels).find rancherProjectIDLabel = some pid → pid ≠ "" →
        ∀ (L : Except String (List Project)) (E : Option String),
          Reconcile (.ok (some ns)) L E = ⟨none, []⟩) ∧
    (∀ (ns ns' : K8sNamespace) (L : Except String (List Project)),
        (Reconcile (.ok (some ns)) L none).patches = [ns'] →
        ∀ (L' : Except String (List Project)) (E' : Option String),
          (Reconcile (.ok (some ns')) L' E').patches = []) := by
  constructor
  · exact fun ns pid h hne L E => reconcile_noop_of_assigned ns pid h hne L E
  · intro ns ns' L h L' E'
    obtain ⟨pid, cid, hpid, rfl⟩ := reconcile_patch_shape ns L none ns' h
    rw [reconcile_noop_of_assigned _ pid (update_labels_projectId ns pid cid)
      hpid L' E']

/-- C2 witness: a concretely pre-assigned namespace is a no-op, and
re-reconciling the concrete result of a successful assignment patches
nothing. -/
theorem claim_C2_witness :
    Reconcile (.ok (some ⟨"ns1",
        some [("appOwner", "DevOps"), ("field.cattle.io/projectId", "c-1:p-9")],
        none⟩)) (.ok []) none = ⟨none, []⟩ ∧
    (Reconcile (.ok (some ⟨"ns1",
        some [("appOwner", "DevOps"), ("field.cattle.io/projectId", "c-1:p-2"),
              ("field.cattle.io/clusterId", "c-1")],
        some [("field.cattle.io/projectId", "c-1:p-2")]⟩))
      (.ok []) none).patches = [] :=
  ⟨claim_C2.1 ⟨"ns1",
      some [("appOwner", "DevOps"), ("field.cattle.io/projectId", "c-1:p-9")],
      none⟩ "c-1:p-9" (by decide) (by decide) (.ok []) none,
   claim_C2.2 ⟨"ns1", some [("appOwner", "DevOps")], none⟩ _
      (.ok [⟨"c-1:p-2", some "devops", [], []⟩]) (by decide) (.ok []) none⟩

/-- C3: a namespace with a missing or empty owner label is reconciled as
a no-op — no error, no patch — and the outcome does not depend on the
project listing (the resolver is never consulted). -/
theorem claim_C3 (ns : K8sNamespace)
    (h : (readMap ns.labels).find appOwnerLabel = none ∨
         (readMap ns.labels).find appOwnerLabel = some "")
    (L : Except String (List Project)) (E : Option String) :
    Reconcile (.ok (some ns)) L E = ⟨none, []⟩ :=
  reconcile_noop_of_no_owner ns h L E

/-- C3 witness: concrete namespaces without (or with an empty) owner
label reconcile to a no-op. -/
theorem claim_C3_witness :
    Reconcile (.ok (some ⟨"ns1", some [("team", "x")], none⟩))
      (.ok [⟨"c-1:p-2", some "devops", [], []⟩]) none = ⟨none, []⟩ ∧
    Reconcile (.ok (some ⟨"ns2", some [("appOwner", "")], none⟩))
      (.ok [⟨"c-1:p-2", some "devops", [], []⟩]) none = ⟨none, []⟩ :=
  ⟨claim_C3 ⟨"ns1", some [("team", "x")], none⟩ (.inl (by decide))
      (.ok [⟨"c-1:p-2", some "devops", [], []⟩]) none,
   claim_C3 ⟨"ns2", some [("appOwner", "")], none⟩ (.inr (by decide))
      (.ok [⟨"c-1:p-2", some "devops", [], []⟩]) none⟩

/-- C9: the canonical-identifier derivation of the (spec-modelled)
creation path maps `"My App!! Team"` to `"p-my-app-team"`. -/
theorem claim_C9 : generateProjectID "My App!! Team" = "p-my-app-team" := by
  decide

/-- C10: the update sets the project-id label, the project-id annotation
and (exactly when the cluster id is non-empty) the cluster-id label,
overwriting whatever was there, initializes nil maps, and preserves the
name and every other label and annotation key. -/
theorem claim_C10 (ns : K8sNamespace) (pid cid : String) (hpid : pid ≠ "") :
    (readMap (updateNamespaceWithProject ns pid cid).labels).find
        rancherProjectIDLabel = some pid ∧
    (readMap (updateNamespaceWithProject ns pid cid).annotations).find
        rancherProjectIDAnnotation = some pid ∧
    (cid ≠ "" →
      (readMap (updateNamespaceWithProject ns pid cid).labels).find
        rancherClusterIDLabel = some cid) ∧
    (cid = "" →
      (readMap (updateNamespaceWithProject ns pid cid).labels).find
          rancherClusterIDLabel = (readMap ns.labels).find rancherClusterIDLabel) ∧
    (updateNamespaceWithProject ns pid cid).name = ns.name ∧
    (updateNamespaceWithProject ns pid cid).labels.isSome = true ∧
    (updateNamespaceWithProject ns pid cid).annotations.isSome = true ∧
    (∀ k, k ≠ rancherProjectIDLabel → k ≠ rancherClusterIDLabel →
      (readMap (updateNamespaceWithProject ns pid cid).labels).find k
        = (readMap ns.labels).find k) ∧
    (∀ k, k ≠ rancherProjectIDAnnotation →
      (readMap (updateNamespaceWithProject ns pid cid).annotations).find k
        = (readMap ns.annotations).find k) := by
  refine ⟨update_labels_projectId ns pid cid, update_annos_projectId ns pid cid,
    fun h => update_labels_clusterId_pos ns pid cid h,
    fun h => ?_,
    update_name ns pid cid,
    (update_maps_initialized ns pid cid).1,
    (update_maps_initialized ns pid cid).2,
    fun k h1 h2 => update_labels_other ns pid cid k h1 h2,
    fun k h => update_annos_other ns pid cid k h⟩
  subst h
  exact update_labels_clusterId_neg ns pid

/-- C10 witness: the update applied to a namespace whose maps are both
nil, with non-empty project and cluster ids. -/
theorem claim_C10_witness :
    (readMap (updateNamespaceWithProject ⟨"n", none, none⟩ "c-1:p-2" "c-1").labels).find
        rancherProjectIDLabel = some "c-1:p-2" ∧
    (readMap (updateNamespaceWithProject ⟨"n", none, none⟩ "c-1:p-2" "c-1").annotations).find
        rancherProjectIDAnnotation = some "c-1:p-2" ∧
    ("c-1" ≠ "" →
      (readMap (updateNamespaceWithProject ⟨"n", none, none⟩ "c-1:p-2" "c-1").labels).find
        rancherClusterIDLabel = some "c-1") ∧
    ("c-1" = "" →
      (readMap (updateNamespaceWithProject ⟨"n", none, none⟩ "c-1:p-2" "c-1").labels).find
          rancherClusterIDLabel
        = (readMap (⟨"n", none, none⟩ : K8sNamespace).labels).find rancherClusterIDLabel) ∧
    (updateNamespaceWithProject ⟨"n", none, none⟩ "c-1:p-2" "c-1").name = "n" ∧
    (updateNamespaceWithProject ⟨"n", none, none⟩ "c-1:p-2" "c-1").labels.isSome = true ∧
    (updateNamespaceWithProject ⟨"n", none, none⟩ "c-1:p-2" "c-1").annotations.isSome = true ∧
    (∀ k, k ≠ rancherProjectIDLabel → k ≠ rancherClusterIDLabel →
      (readMap (updateNamespaceWithProject ⟨"n", none, none⟩ "c-1:p-2" "c-1").labels).find k
        = (readMap (⟨"n", none, none⟩ : K8sNamespace).labels).find k) ∧
    (∀ k, k ≠ rancherProjectIDAnnotation →
      (readMap (updateNamespaceWithProject ⟨"n", none, none⟩ "c-1:p-2" "c-1").annotations).find k
        = (readMap (⟨"n", none, none⟩ : K8sNamespace).annotations).find k) :=
  claim_C10 ⟨"n", none, none⟩ "c-1:p-2" "c-1" (by decide)

/-- C4: the match predicate holds exactly when the wanted name equals,
case-insensitively, the display name, some label value or some
annotation value; the key-substring checks never change the outcome
(`projectMatches` coincides with the spec's stripped-down predicate);
and `"DevOps"`, `"devops"`, `"DEVOPS"` all match a display name
`"DevOps"`. -/
theorem claim_C4 :
    (∀ (p : Project) (n : String), projectMatches p n = projectMatchesSpec p n) ∧
    (∀ (p : Project) (n : String), projectMatches p n = true ↔
        ((∃ d, p.displayName = some d ∧ eqFold d n = true) ∨
         (∃ kv ∈ p.labels, eqFold kv.2 n = true) ∨
         (∃ kv ∈ p.annotations, eqFold kv.2 n = true))) ∧
    (projectMatches ⟨"c-1:p-1", some "DevOps", [], []⟩ "DevOps" = true ∧
     projectMatches ⟨"c-1:p-1", some "DevOps", [], []⟩ "devops" = true ∧
     projectMatches ⟨"c-1:p-1", some "DevOps", [], []⟩ "DEVOPS" = true) := by
  refine ⟨projectMatches_eq_spec, fun p n => ?_, by decide, by decide, by decide⟩
  rw [projectMatches_eq_spec]
  unfold projectMatchesSpec
  cases p.displayName <;>
    simp [List.any_eq_true, or_assoc]

/-- C5: the resolver errs exactly when the underlying list call errs
(wrapping the message); on success it returns the first project in list
order satisfying the match predicate, and `none` with no error when no
project matches; in particular a namespace labeled `appOwner=Ghost`
reconciles with no patch and no error when nothing matches `"Ghost"`. -/
theorem claim_C5 :
    (∀ (e n : String),
        findProjectByName (.error e) n
          = .error ("unable to list projects: " ++ e)) ∧
    (∀ (ps : List Project) (n : String) (p : Project),
        findProjectByName (.ok ps) n = .ok (some p) →
        p ∈ ps ∧ projectMatches p n = true) ∧
    (∀ (ps1 ps2 : List Project) (p : Project) (n : String),
        (∀ q ∈ ps1, projectMatches q n = false) → projectMatches p n = true →
        findProjectByName (.ok (ps1 ++ p :: ps2)) n = .ok (some p)) ∧
    (∀ (ps : List Project) (n : String),
        (∀ p ∈ ps, projectMatches p n = false) →
        findProjectByName (.ok ps) n = .ok none) ∧
    (∀ (ns : K8sNamespace) (ps : List Project) (E : Option String),
        (readMap ns.labels).find appOwnerLabel = some "Ghost" →
        (∀ p ∈ ps, projectMatches p "Ghost" = false) →
        Reconcile (.ok (some ns)) (.ok ps) E = ⟨none, []⟩) := by
  refine ⟨fun e n => rfl, fun ps n p h => ?_, fun ps1 ps2 p n h1 hp => ?_,
    fun ps n h => ?_, fun ns ps E h1 h2 =>
      reconcile_noop_of_no_match ns ps E "Ghost" h1 (by decide) h2⟩
  · unfold findProjectByName at h
    simp only [Except.ok.injEq] at h
    exact ⟨List.mem_of_find?_eq_some h, List.find?_some (p := fun q => projectMatches q n) h⟩
  · unfold findProjectByName
    simp only []
    rw [find_first_match ps1 ps2 p n h1 hp]
  · unfold findProjectByName
    simp only [Except.ok.injEq]
    rw [List.find?_eq_none]
    intro q hq
    simp [h q hq]

/-- C5 witness: the resolver conjuncts and the Ghost scenario at
concrete inputs (a matching and a non-matching project). -/
theorem claim_C5_witness :
    ((⟨"c-1:p-2", some "devops", [], []⟩ : Project)
        ∈ [(⟨"c-1:p-2", some "devops", [], []⟩ : Project)] ∧
      projectMatches ⟨"c-1:p-2", some "devops", [], []⟩ "DevOps" = true) ∧
    findProjectByName
        (.ok ([⟨"c-9:p-9", some "other", [], []⟩] ++
          (⟨"c-1:p-2", some "devops", [], []⟩ : Project) :: []))
        "DevOps" = .ok (some ⟨"c-1:p-2", some "devops", [], []⟩) ∧
    findProjectByName (.ok [⟨"c-9:p-9", some "other", [], []⟩]) "Ghost"
      = .ok none ∧
    Reconcile (.ok (some ⟨"ns1", some [("appOwner", "Ghost")], none⟩))
      (.ok [⟨"c-9:p-9", some "other", [], []⟩]) none = ⟨none, []⟩ :=
  ⟨claim_C5.2.1 [⟨"c-1:p-2", some "devops", [], []⟩] "DevOps"
      ⟨"c-1:p-2", some "devops", [], []⟩ rfl,
   claim_C5.2.2.1 [⟨"c-9:p-9", some "other", [], []⟩] []
      ⟨"c-1:p-2", some "devops", [], []⟩ "DevOps" (by decide) (by decide),
   claim_C5.2.2.2.1 [⟨"c-9:p-9", some "other", [], []⟩] "Ghost" (by decide),
   claim_C5.2.2.2.2 ⟨"ns1", some [("appOwner", "Ghost")], none⟩
      [⟨"c-9:p-9", some "other", [], []⟩] none (by decide) (by decide)⟩

/-- C6: `extractClusterID` maps `"c-1234:p-5678"` to `"c-1234"` and any
colon-free identifier (such as `"p-5678"`) to `""`; and when it comes up
empty, `Reconcile` passes the detected cluster id (`"local"`) to the
patch applier, as the concrete no-colon scenario shows. -/
theorem claim_C6 :
    extractClusterID "c-1234:p-5678" = "c-1234" ∧
    extractClusterID "p-5678" = "" ∧
    (∀ s : String, ':' ∉ s.data → extractClusterID s = "") ∧
    Reconcile (.ok (some ⟨"ns1", some [("appOwner", "x")], none⟩))
        (.ok [⟨"p-5678", some "x", [], []⟩]) none
      = ⟨none, [⟨"ns1",
          some [("appOwner", "x"), ("field.cattle.io/projectId", "p-5678"),
                ("field.cattle.io/clusterId", getClusterClientID)],
          some [("field.cattle.io/projectId", "p-5678")]⟩]⟩ := by
  refine ⟨by decide, by decide, ?_, by decide⟩
  intro s h
  unfold extractClusterID
  simp [splitOnColon_eq_single s.data h]

/-- C6 witness: the colon-free conjunct applied at `"x-99"`. -/
theorem claim_C6_witness : extractClusterID "x-99" = "" :=
  claim_C6.2.2.1 "x-99" (by decide)

/-- C1: a namespace labeled `appOwner=DevOps` with no project-id label,
against a listing holding one Project named `"c-1:p-2"` with display
name `"devops"`, reconciles without error and with exactly one patch,
after which the namespace carries the project-id label `"c-1:p-2"`, the
cluster-id label `"c-1"` and the project-id annotation `"c-1:p-2"`,
every other field unchanged. -/
theorem claim_C1 (ns : K8sNamespace)
    (h1 : (readMap ns.labels).find appOwnerLabel = some "DevOps")
    (h2 : (readMap ns.labels).find rancherProjectIDLabel = none) :
    ∃ ns', Reconcile (.ok (some ns)) (.ok [⟨"c-1:p-2", some "devops", [], []⟩]) none
        = ⟨none, [ns']⟩
      ∧ (readMap ns'.labels).find rancherProjectIDLabel = some "c-1:p-2"
      ∧ (readMap ns'.labels).find rancherClusterIDLabel = some "c-1"
      ∧ (readMap ns'.annotations).find rancherProjectIDAnnotation = some "c-1:p-2"
      ∧ ns'.name = ns.name
      ∧ (∀ k, k ≠ rancherProjectIDLabel → k ≠ rancherClusterIDLabel →
          (readMap ns'.labels).find k = (readMap ns.labels).find k)
      ∧ (∀ k, k ≠ rancherProjectIDAnnotation →
          (readMap ns'.annotations).find k = (readMap ns.annotations).find k) := by
  refine ⟨updateNamespaceWithProject ns "c-1:p-2" "c-1", ?_,
    update_labels_projectId ns _ _,
    update_labels_clusterId_pos ns _ _ (by decide),
    update_annos_projectId ns _ _,
    update_name ns _ _,
    fun k hk1 hk2 => update_labels_other ns _ _ k hk1 hk2,
    fun k hk => update_annos_other ns _ _ k hk⟩
  unfold Reconcile
  simp only []
  rw [h1, h2]
  rfl

/-- C1 witness: the scenario at the concrete namespace `ns1`. -/
theorem claim_C1_witness :
    ∃ ns', Reconcile (.ok (some ⟨"ns1", some [("appOwner", "DevOps")], none⟩))
        (.ok [⟨"c-1:p-2", some "devops", [], []⟩]) none = ⟨none, [ns']⟩
      ∧ (readMap ns'.labels).find rancherProjectIDLabel = some "c-1:p-2"
      ∧ (readMap ns'.labels).find rancherClusterIDLabel = some "c-1"
      ∧ (readMap ns'.annotations).find rancherProjectIDAnnotation = some "c-1:p-2"
      ∧ ns'.name = (⟨"ns1", some [("appOwner", "DevOps")], none⟩ : K8sNamespace).name
      ∧ (∀ k, k ≠ rancherProjectIDLabel → k ≠ rancherClusterIDLabel →
          (readMap ns'.labels).find k
            = (readMap (⟨"ns1", some [("appOwner", "DevOps")], none⟩ : K8sNamespace).labels).find k)
      ∧ (∀ k, k ≠ rancherProjectIDAnnotation →
          (readMap ns'.annotations).find k
            = (readMap (⟨"ns1", some [("appOwner", "DevOps")], none⟩ : K8sNamespace).annotations).find k) :=
  claim_C1 ⟨"ns1", some [("appOwner", "DevOps")], none⟩ (by decide) (by decide)

/-- C7: a failed cluster list leaves the client map untouched; on a
successful list the rebuilt map holds exactly the listed clusters that
pass the inclusion test, and that test holds precisely for non-local
clusters with a `Ready`/`True` condition whose client construction
succeeded.  A per-cluster construction failure (`ok` false there) only
omits that cluster. -/
theorem claim_C7 :
    (∀ (old : SMap) (baseHost : String) (ok : String → Bool) (e : String),
        doRefreshClusterClients old (.error e) baseHost ok = old) ∧
    (∀ (old : SMap) (baseHost : String) (ok : String → Bool)
        (cs : List Cluster) (cid : String),
        ((doRefreshClusterClients old (.ok cs) baseHost ok).find cid).isSome
          = cs.any (fun c => (c.name == cid) && includeCluster ok c)) ∧
    (∀ (ok : String → Bool) (c : Cluster),
        includeCluster ok c = true ↔
          c.name ≠ "local" ∧
          (∃ conds, c.conditions = some conds ∧
            ∃ cond ∈ conds, cond.condType = some "Ready" ∧
              cond.condStatus = some "True") ∧
          ok c.name = true) := by
  refine ⟨fun old baseHost ok e => rfl, fun old baseHost ok cs cid => ?_,
    fun ok c => ?_⟩
  · unfold doRefreshClusterClients
    rw [refresh_fold_find_isSome]
    simp [SMap.find]
  · unfold includeCluster clusterReady
    cases c.conditions <;>
      simp [List.any_eq_true, bne_iff_ne, and_assoc]

/-- C8 counterexample: at the empty host the code leaves the host
unchanged, while the claim's "otherwise append" formula (the host does
not contain the prefix) would produce a non-empty host. -/
theorem claim_C8_counterexample :
    strContains "" "/k8s/clusters/" = false ∧
    rewriteHost "" "c-1" = "" ∧
    trimSuffix "" "/" ++ "/k8s/clusters/" ++ "c-1" ≠ "" := by decide

/-- C8 (amended to non-empty hosts): for every non-empty host, a host
already containing `"/k8s/clusters/"` is unchanged, otherwise the proxy
path is appended after trimming a trailing slash; and the rewrite is
idempotent for every host, so the prefix is never duplicated. -/
theorem claim_C8_amended :
    (∀ host cid, host ≠ "" → strContains host "/k8s/clusters/" = true →
        rewriteHost host cid = host) ∧
    (∀ host cid, host ≠ "" → strContains host "/k8s/clusters/" = false →
        rewriteHost host cid = trimSuffix host "/" ++ "/k8s/clusters/" ++ cid) ∧
    (∀ host cid, rewriteHost (rewriteHost host cid) cid = rewriteHost host cid) := by
  refine ⟨fun host cid h1 h2 => ?_, fun host cid h1 h2 => ?_, fun host cid => ?_⟩
  · unfold rewriteHost
    simp [h1, h2]
  · unfold rewriteHost
    simp [h1, h2]
  · by_cases h : host = ""
    · subst h
      rfl
    · by_cases hc : strContains host "/k8s/clusters/" = true
      · have e1 : rewriteHost host cid = host := by
          unfold rewriteHost
          simp [h, hc]
        rw [e1, e1]
      · have hc' : strContains host "/k8s/clusters/" = false := by
          simpa using hc
        have e1 : rewriteHost host cid
            = trimSuffix host "/" ++ "/k8s/clusters/" ++ cid := by
          unfold rewriteHost
          simp [h, hc']
        rw [e1]
        have hdata : (trimSuffix host "/" ++ "/k8s/clusters/" ++ cid).data
            = (trimSuffix host "/").data ++ ("/k8s/clusters/".data ++ cid.data) := by
          rw [str_data_append, str_data_append, List.append_assoc]
        have hcont : strContains (trimSuffix host "/" ++ "/k8s/clusters/" ++ cid)
            "/k8s/clusters/" = true := by
          unfold strContains
          rw [hdata]
          exact isInfixL_append_left _ _ _
            (isInfixL_of_isPrefixL _ _ (isPrefixL_append _ _))
        have hne : trimSuffix host "/" ++ "/k8s/clusters/" ++ cid ≠ "" := by
          intro hh
          rw [hh] at hcont
          exact absurd hcont (by decide)
        unfold rewriteHost
        simp [hne, hcont, e1]

/-- C8 witness: the amended statement at concrete hosts, with and
without the proxy prefix already present. -/
theorem claim_C8_witness :
    rewriteHost "https://h" "c-1"
      = trimSuffix "https://h" "/" ++ "/k8s/clusters/" ++ "c-1" ∧
    rewriteHost "https://h/k8s/clusters/c-1" "c-1" = "https://h/k8s/clusters/c-1" ∧
    rewriteHost (rewriteHost "https://h/" "c-1") "c-1" = rewriteHost "https://h/" "c-1" :=
  ⟨claim_C8_amended.2.1 "https://h" "c-1" (by decide) (by decide),
   claim_C8_amended.1 "https://h/k8s/clusters/c-1" "c-1" (by decide) (by decide),
   claim_C8_amended.2.2 "https://h/" "c-1"⟩

end RancherOperator
